import Mathlib

/-!
Verification development for the `torch::deploy` multi-interpreter embedding
runtime (`torch/csrc/deploy/deploy.cpp`).

The C++ source is shallowly embedded: machine integers (`uint64_t` usage
counters) are `Nat` reduced modulo `2 ^ 64` at every write, pointers are `Nat`
addresses with `0` playing the role of `nullptr`, fallible operations
(`TORCH_CHECK`) return `Except`, and the stateful objects (load balancer,
interpreter pool, manager) are explicit state records threaded through the
functions.  Code that lives only in the header `deploy.h` (not part of the
sources verified here) is modelled from the specification and marked as such
in its doc comment.
-/

namespace Deploy

/-- Modulus of the 64-bit unsigned usage counters (`uint64_t`). -/
def U64 : Nat := 2 ^ 64

/-- `SIZE_MAX`, the initial value of `minusers` in `LoadBalancer::acquire`. -/
def USIZE_MAX : Nat := 2 ^ 64 - 1

namespace LoadBalancer

/-- The scan loop of `LoadBalancer::acquire` (deploy.cpp lines 250-274) plus
the slow-path fallback after it (lines 278-279).  `uses` holds the logical
per-slot counters (the C++ array stores slot `i` at `uses_[8 * i]` purely for
cache-line padding); `fuel` is the remaining number of loop iterations
(`n_ - i`), `last` the thread-local rotating cursor, `minusers`/`min_idx` the
running minimum accumulator.  A successful compare-and-swap from 0 to 1
returns immediately (fast path); on failure the observed value `prev`
updates the running minimum exactly as `if (prev < minusers)` does.  When the
loop exhausts all `n` slots, the slot `min_idx` is incremented (modulo
`2 ^ 64`, as `__atomic_fetch_add` on `uint64_t` wraps) and returned.
Result: (returned slot, new counters, new thread-local cursor). -/
def acquireGo (uses : List Nat) : Nat → Nat → Nat → Nat → Nat × List Nat × Nat
  | 0, last, _minusers, min_idx =>
      (min_idx, uses.set min_idx ((uses.getD min_idx 0 + 1) % U64), last)
  | fuel + 1, last, minusers, min_idx =>
      let l := if uses.length ≤ last then 0 else last
      let prev := uses.getD l 0
      if prev = 0 then
        (l, uses.set l 1, l)
      else if prev < minusers then
        acquireGo uses fuel (l + 1) prev l
      else
        acquireGo uses fuel (l + 1) minusers min_idx

/-- `LoadBalancer::acquire` (deploy.cpp lines 245-281), single-thread model.
`last` is the value of the `thread_local int last` cursor on entry; the third
component of the result is its value on exit. -/
def acquire (uses : List Nat) (last : Nat) : Nat × List Nat × Nat :=
  acquireGo uses uses.length last USIZE_MAX 0

/-- `LoadBalancer::free` (deploy.cpp lines 283-288):
`__atomic_fetch_sub(&uses_[8 * where], 1ULL, __ATOMIC_SEQ_CST)`, i.e. the
counter decreases by one, wrapping modulo `2 ^ 64` on underflow. -/
def free (uses : List Nat) (idx : Nat) : List Nat :=
  uses.set idx ((uses.getD idx 0 + (U64 - 1)) % U64)

/-- The sequence of slot indices visited by the scan loop: each iteration
first wraps the cursor (`if (last >= n_) last = 0;`) and then visits it. -/
def scanFrom (n : Nat) : Nat → Nat → List Nat
  | 0, _ => []
  | fuel + 1, last =>
      let l := if n ≤ last then 0 else last
      l :: scanFrom n fuel (l + 1)

/-- The full scan order of one `acquire` call: all `n` slots starting from the
(wrapped) rotating cursor. -/
def scanSeq (n last : Nat) : List Nat := scanFrom n n last

/-- The running-minimum accumulator of the scan loop, isolated as a fold over
the scan order: `(minusers, min_idx)` is updated by each visited slot `j`
exactly when `uses[j] < minusers`. -/
def foldMin (uses : List Nat) : List Nat → Nat × Nat → Nat × Nat
  | [], acc => acc
  | j :: rest, acc =>
      if uses.getD j 0 < acc.1 then foldMin uses rest (uses.getD j 0, j)
      else foldMin uses rest acc

end LoadBalancer

/-- Counters all zero with the first `k` slots raised to 1: the balancer state
reached after `k` uncontended fast-path acquisitions in a fresh pool of size
`n`. -/
def onesState : Nat → Nat → List Nat
  | _, 0 => []
  | 0, n + 1 => 0 :: onesState 0 n
  | k + 1, n + 1 => 1 :: onesState k n

/-- `k` successive calls to `LoadBalancer::acquire` with no intervening
`free`, collecting the returned slot indices in call order. -/
def acquireN : Nat → List Nat → Nat → List Nat × Nat × List Nat
  | 0, uses, last => (uses, last, [])
  | k + 1, uses, last =>
      let r := LoadBalancer.acquire uses last
      let rest := acquireN k r.2.1 r.2.2
      (rest.1, rest.2.1, r.1 :: rest.2.2)

-- sanity: a fresh pool of 3 hands out 0, 1, 2 in order
example : (acquireN 3 [0, 0, 0] 0).2.2 = [0, 1, 2] := by decide

/-! ### Generic list helpers -/

theorem getD_set_self {α : Type} (l : List α) (i : Nat) (x d : α) (h : i < l.length) :
    (l.set i x).getD i d = x := by
  induction l generalizing i with
  | nil => simp at h
  | cons a t ih =>
      cases i with
      | zero => simp
      | succ j => simpa using ih j (by simpa using h)

theorem set_getD_self {α : Type} (l : List α) (i : Nat) (d : α) (h : i < l.length) :
    l.set i (l.getD i d) = l := by
  induction l generalizing i with
  | nil => simp at h
  | cons a t ih =>
      cases i with
      | zero => simp
      | succ j => simpa using ih j (by simpa using h)

/-! ### Facts about `onesState` -/

theorem onesState_length (k n : Nat) : (onesState k n).length = n := by
  induction n generalizing k with
  | zero => cases k <;> simp [onesState]
  | succ m ih => cases k <;> simp [onesState, ih]

theorem onesState_zero (n : Nat) : onesState 0 n = List.replicate n 0 := by
  induction n with
  | zero => simp [onesState]
  | succ m ih => simp [onesState, ih, List.replicate_succ]

theorem onesState_getD_lt (k n j : Nat) (hj : j < k) (hk : k ≤ n) :
    (onesState k n).getD j 0 = 1 := by
  induction n generalizing k j with
  | zero => omega
  | succ m ih =>
      cases k with
      | zero => omega
      | succ k' =>
          cases j with
          | zero => simp [onesState]
          | succ j' => simpa [onesState] using ih k' j' (by omega) (by omega)

theorem onesState_getD_ge (k n j : Nat) (hj : k ≤ j) :
    (onesState k n).getD j 0 = 0 := by
  induction n generalizing k j with
  | zero => cases k <;> simp [onesState]
  | succ m ih =>
      cases k with
      | zero =>
          cases j with
          | zero => simp [onesState]
          | succ j' => simpa [onesState] using ih 0 j' (by omega)
      | succ k' =>
          cases j with
          | zero => omega
          | succ j' => simpa [onesState] using ih k' j' (by omega)

theorem onesState_set (k n : Nat) (hk : k < n) :
    (onesState k n).set k 1 = onesState (k + 1) n := by
  induction n generalizing k with
  | zero => omega
  | succ m ih =>
      cases k with
      | zero => cases m <;> simp [onesState]
      | succ k' => simpa [onesState] using ih k' (by omega)

-- sanity: starting cursor 2 on an idle pool of 4 grabs slot 2 first
example : (LoadBalancer.acquire [0, 0, 0, 0] 2).1 = 2 := by decide

-- sanity: fully loaded pool falls back to the least-loaded slot (first seen
-- from the cursor), here slot 0 with 1 user, scanning 1, 2, 0
example : (LoadBalancer.acquire [1, 2, 3] 1).1 = 0 ∧
    (LoadBalancer.acquire [1, 2, 3] 1).2.1 = [2, 2, 3] := by decide

/-! ### Successive uncontended acquisitions (claim C7) -/

/-- One-step unfolding of the scan loop, stated as a plain equation. -/
theorem acquireGo_succ (uses : List Nat) (fuel last mu mi : Nat) :
    LoadBalancer.acquireGo uses (fuel + 1) last mu mi =
      (if uses.getD (if uses.length ≤ last then 0 else last) 0 = 0 then
        ((if uses.length ≤ last then 0 else last),
         uses.set (if uses.length ≤ last then 0 else last) 1,
         (if uses.length ≤ last then 0 else last))
      else if uses.getD (if uses.length ≤ last then 0 else last) 0 < mu then
        LoadBalancer.acquireGo uses fuel ((if uses.length ≤ last then 0 else last) + 1)
          (uses.getD (if uses.length ≤ last then 0 else last) 0)
          (if uses.length ≤ last then 0 else last)
      else
        LoadBalancer.acquireGo uses fuel ((if uses.length ≤ last then 0 else last) + 1) mu mi) :=
  rfl

/-- On the state reached after `k ≥ 1` uncontended acquisitions in a pool of
size `n > k`, the next `acquire` (whose cursor rests on the previously
returned slot `k - 1`) fails its compare-and-swap there and immediately
succeeds on the idle slot `k`. -/
theorem acquire_onesState (k n : Nat) (hk : 1 ≤ k) (hkn : k + 1 ≤ n) :
    LoadBalancer.acquire (onesState k n) (k - 1) = (k, onesState (k + 1) n, k) := by
  obtain ⟨m, rfl⟩ : ∃ m, n = m + 2 := ⟨n - 2, by omega⟩
  show LoadBalancer.acquireGo (onesState k (m + 2)) (onesState k (m + 2)).length
      (k - 1) USIZE_MAX 0 = _
  rw [onesState_length]
  rw [acquireGo_succ, onesState_length]
  rw [if_neg (by omega : ¬ m + 2 ≤ k - 1)]
  rw [onesState_getD_lt k (m + 2) (k - 1) (by omega) (by omega)]
  rw [if_neg (by omega : ¬ (1 : Nat) = 0)]
  rw [if_pos (by norm_num [USIZE_MAX] : (1 : Nat) < USIZE_MAX)]
  rw [(by omega : k - 1 + 1 = k)]
  rw [acquireGo_succ, onesState_length]
  rw [if_neg (by omega : ¬ m + 2 ≤ k)]
  rw [onesState_getD_ge k (m + 2) k (le_refl k)]
  rw [if_pos rfl]
  rw [onesState_set k (m + 2) (by omega)]

/-- The very first acquisition on a fresh pool (all counters zero, cursor at
its initial value 0) takes slot 0 on the fast path. -/
theorem acquire_onesState_zero (n : Nat) (hn : 1 ≤ n) :
    LoadBalancer.acquire (onesState 0 n) 0 = (0, onesState 1 n, 0) := by
  obtain ⟨m, rfl⟩ : ∃ m, n = m + 1 := ⟨n - 1, by omega⟩
  show LoadBalancer.acquireGo (onesState 0 (m + 1)) (onesState 0 (m + 1)).length
      0 USIZE_MAX 0 = _
  rw [onesState_length]
  rw [acquireGo_succ, onesState_length]
  rw [if_neg (by omega : ¬ m + 1 ≤ 0)]
  rw [onesState_getD_ge 0 (m + 1) 0 (le_refl 0)]
  rw [if_pos rfl]
  rw [onesState_set 0 (m + 1) (by omega)]

/-- After `k ≥ 1` uncontended acquisitions, `n` more (with `k + n` at most the
pool size) return exactly the slots `k, k + 1, ..., k + n - 1` in order. -/
theorem acquireN_onesState (N : Nat) : ∀ n k, 1 ≤ k → k + n ≤ N →
    acquireN n (onesState k N) (k - 1) =
      (onesState (k + n) N, k + n - 1, List.range' k n) := by
  intro n
  induction n with
  | zero => intro k hk hkn; simp [acquireN]
  | succ n ih =>
      intro k hk hkn
      have hstep := acquire_onesState k N hk (by omega)
      have ih' := ih (k + 1) (by omega) (by omega)
      rw [Nat.add_sub_cancel] at ih'
      rw [(by omega : k + (n + 1) = k + 1 + n)]
      rw [List.range'_succ k n 1]
      simp [acquireN, hstep, ih']

/-- Claim C7 (amended): starting from all usage counters at zero with the
thread-local rotating offset at its initial value 0, `n` successive calls to
`LoadBalancer::acquire` with no intervening `free` and no concurrent acquirer
return exactly the slot indices `0, 1, ..., n - 1` in order (hence `n`
distinct indices covering the full range), whenever `n` is at most the pool
size. -/
theorem C7_acquireN_range (N n : Nat) (h : n ≤ N) :
    (acquireN n (List.replicate N 0) 0).2.2 = List.range n := by
  cases n with
  | zero => simp [acquireN]
  | succ n =>
      rw [← onesState_zero]
      have h1 := acquire_onesState_zero N (by omega)
      have h2 := acquireN_onesState N n 1 (le_refl 1) (by omega)
      simp only [acquireN, h1]
      norm_num at h2
      simp only [h2]
      rw [List.range_eq_range' (n + 1), List.range'_succ 0 n 1]

/-- Claim C7 witness: with pool size 4 and 3 acquisitions from a fresh state,
the returned slots are exactly `[0, 1, 2]`. -/
theorem C7_acquireN_range_witness :
    3 ≤ 4 ∧ (acquireN 3 (List.replicate 4 0) 0).2.2 = List.range 3 :=
  ⟨by decide, C7_acquireN_range 4 3 (by decide)⟩

/-- Claim C7 counterexample: the claim as stated fails once the thread-local
rotating offset is nonzero (a state reachable by acquiring and freeing on the
same thread): with all counters zero in a pool of size 2 but the cursor at 1,
a single `acquire` returns slot 1, so the returned indices do not cover
`0..0`. -/
theorem C7_counterexample :
    (acquireN 1 (List.replicate 2 0) 1).2.2 = [1] ∧
      ¬ (0 ∈ (acquireN 1 (List.replicate 2 0) 1).2.2) := by decide

/-! ### The scan order of one `acquire` call (claim C1) -/

theorem getD_mem {α : Type} (l : List α) (i : Nat) (d : α) (h : i < l.length) :
    l.getD i d ∈ l := by
  induction l generalizing i with
  | nil => simp at h
  | cons a t ih =>
      cases i with
      | zero => simp
      | succ j =>
          have := ih j (by simpa using h)
          simp only [List.getD_cons_succ]
          exact List.mem_cons_of_mem a this

theorem scanFrom_mem_lt (n : Nat) (hn : 0 < n) :
    ∀ fuel last j, j ∈ LoadBalancer.scanFrom n fuel last → j < n := by
  intro fuel
  induction fuel with
  | zero => intro last j hj; simp [LoadBalancer.scanFrom] at hj
  | succ fuel ih =>
      intro last j hj
      rcases (List.mem_cons.mp hj) with h | h
      · subst h; split <;> omega
      · exact ih _ j h

/-- The first loop iteration only depends on the wrapped cursor. -/
theorem scanFrom_wrap (n fuel last : Nat) :
    LoadBalancer.scanFrom n (fuel + 1) last =
      LoadBalancer.scanFrom n (fuel + 1) (if n ≤ last then 0 else last) := by
  by_cases h : n ≤ last
  · show _ :: _ = _ :: _
    rw [if_pos h]
    by_cases h0 : n ≤ 0 <;> simp [LoadBalancer.scanFrom, h, h0]
  · rw [if_neg h]

/-- With a cursor no larger than `n`, the scan visits `n` consecutive slots
modulo `n`, starting at `last % n`. -/
theorem scanFrom_eq_map (n : Nat) (hn : 0 < n) :
    ∀ fuel last, last ≤ n →
      LoadBalancer.scanFrom n fuel last =
        (List.range fuel).map (fun i => (last + i) % n) := by
  intro fuel
  induction fuel with
  | zero => intro last h; simp [LoadBalancer.scanFrom]
  | succ fuel ih =>
      intro last h
      have hl : (if n ≤ last then 0 else last) = last % n := by
        split
        · have hln : last = n := by omega
          simp [hln]
        · exact (Nat.mod_eq_of_lt (by omega)).symm
      show (if n ≤ last then 0 else last) ::
          LoadBalancer.scanFrom n fuel ((if n ≤ last then 0 else last) + 1) = _
      rw [hl]
      have hlt : last % n < n := Nat.mod_lt _ hn
      rw [ih (last % n + 1) (by omega)]
      rw [List.range_succ_eq_map, List.map_cons, List.map_map]
      refine congrArg₂ _ (by simp) ?_
      refine congrArg (fun f => List.map f (List.range fuel)) (funext fun i => ?_)
      show (last % n + 1 + i) % n = (last + (i + 1)) % n
      rw [Nat.add_assoc (last % n) 1 i, Nat.mod_add_mod]
      rw [(by omega : last + (1 + i) = last + (i + 1))]

/-- Every slot index below `n` is visited by the full scan, whatever the
cursor's entry value. -/
theorem mem_scanSeq (n last j : Nat) (hn : 0 < n) (hj : j < n) :
    j ∈ LoadBalancer.scanSeq n last := by
  obtain ⟨m, rfl⟩ : ∃ m, n = m + 1 := ⟨n - 1, by omega⟩
  show j ∈ LoadBalancer.scanFrom (m + 1) (m + 1) last
  rw [scanFrom_wrap]
  set s0 : Nat := if m + 1 ≤ last then 0 else last with hs0def
  have hs0 : s0 < m + 1 := by rw [hs0def]; split <;> omega
  rw [scanFrom_eq_map (m + 1) hn (m + 1) s0 (by omega)]
  rw [List.mem_map]
  refine ⟨if s0 ≤ j then j - s0 else (m + 1) + j - s0, ?_, ?_⟩
  · rw [List.mem_range]
    split <;> omega
  · by_cases hc : s0 ≤ j
    · rw [if_pos hc, (by omega : s0 + (j - s0) = j), Nat.mod_eq_of_lt hj]
    · rw [if_neg hc, (by omega : s0 + ((m + 1) + j - s0) = (m + 1) + j),
        Nat.add_mod_left, Nat.mod_eq_of_lt hj]

/-! ### The running-minimum accumulator (claim C1, slow path) -/

/-- If no visited slot improves on the incoming minimum, the accumulator is
left untouched. -/
theorem foldMin_no_update (uses : List Nat) :
    ∀ L mu mi, (∀ j ∈ L, mu ≤ uses.getD j 0) →
      LoadBalancer.foldMin uses L (mu, mi) = (mu, mi) := by
  intro L
  induction L with
  | nil => intro mu mi _; rfl
  | cons h t ih =>
      intro mu mi hall
      have hh : ¬ uses.getD h 0 < mu := by
        have := hall h (List.mem_cons_self h t)
        omega
      show (if uses.getD h 0 < mu then _ else _) = _
      rw [if_neg hh]
      exact ih mu mi (fun j hj => hall j (List.mem_cons_of_mem h hj))

/-- If some visited slot is strictly below the incoming minimum, the
accumulator ends at the minimum usage value over the visited slots, held by
the first visited slot attaining it. -/
theorem foldMin_found (uses : List Nat) :
    ∀ L mu mi, (∃ j ∈ L, uses.getD j 0 < mu) →
      (LoadBalancer.foldMin uses L (mu, mi)).1 < mu ∧
      (∀ j ∈ L, (LoadBalancer.foldMin uses L (mu, mi)).1 ≤ uses.getD j 0) ∧
      uses.getD (LoadBalancer.foldMin uses L (mu, mi)).2 0 =
        (LoadBalancer.foldMin uses L (mu, mi)).1 ∧
      L.find? (fun x => uses.getD x 0 == (LoadBalancer.foldMin uses L (mu, mi)).1)
        = some (LoadBalancer.foldMin uses L (mu, mi)).2 := by
  intro L
  induction L with
  | nil => intro mu mi h; simp at h
  | cons h t ih =>
      intro mu mi hex
      by_cases hv : uses.getD h 0 < mu
      · have hstep : LoadBalancer.foldMin uses (h :: t) (mu, mi)
            = LoadBalancer.foldMin uses t (uses.getD h 0, h) := by
          show (if uses.getD h 0 < mu then _ else _) = _
          rw [if_pos hv]
        rw [hstep]
        by_cases ht : ∃ j ∈ t, uses.getD j 0 < uses.getD h 0
        · obtain ⟨h1, h2, h3, h4⟩ := ih (uses.getD h 0) h ht
          refine ⟨by omega, ?_, h3, ?_⟩
          · intro j hj
            rcases List.mem_cons.mp hj with rfl | hj
            · omega
            · exact h2 j hj
          · rw [List.find?_cons_of_neg _ (by simp only [beq_iff_eq]; omega), h4]
        · push_neg at ht
          rw [foldMin_no_update uses t (uses.getD h 0) h ht]
          refine ⟨hv, ?_, rfl, ?_⟩
          · intro j hj
            rcases List.mem_cons.mp hj with rfl | hj
            · exact le_refl _
            · exact ht j hj
          · rw [List.find?_cons_of_pos _ (by simp only [beq_iff_eq])]
      · have hstep : LoadBalancer.foldMin uses (h :: t) (mu, mi)
            = LoadBalancer.foldMin uses t (mu, mi) := by
          show (if uses.getD h 0 < mu then _ else _) = _
          rw [if_neg hv]
        rw [hstep]
        obtain ⟨j0, hj0, hj0v⟩ := hex
        rcases List.mem_cons.mp hj0 with rfl | hj0t
        · omega
        · obtain ⟨h1, h2, h3, h4⟩ := ih mu mi ⟨j0, hj0t, hj0v⟩
          refine ⟨h1, ?_, h3, ?_⟩
          · intro j hj
            rcases List.mem_cons.mp hj with rfl | hj
            · omega
            · exact h2 j hj
          · rw [List.find?_cons_of_neg _ (by simp only [beq_iff_eq]; omega), h4]

/-! ### The two exits of the scan loop (claim C1) -/

/-- Fast path: if the scan order contains an idle slot, the loop returns the
first one, setting its counter to 1 via the successful compare-and-swap. -/
theorem acquireGo_fast (uses : List Nat) :
    ∀ fuel last mu mi j,
      (LoadBalancer.scanFrom uses.length fuel last).find?
          (fun x => uses.getD x 0 == 0) = some j →
      LoadBalancer.acquireGo uses fuel last mu mi = (j, uses.set j 1, j) := by
  intro fuel
  induction fuel with
  | zero => intro last mu mi j hj; simp [LoadBalancer.scanFrom] at hj
  | succ fuel ih =>
      intro last mu mi j hj
      rw [acquireGo_succ]
      by_cases h0 : uses.getD (if uses.length ≤ last then 0 else last) 0 = 0
      · rw [if_pos h0]
        have : j = (if uses.length ≤ last then 0 else last) := by
          rw [show LoadBalancer.scanFrom uses.length (fuel + 1) last
                = (if uses.length ≤ last then 0 else last) ::
                  LoadBalancer.scanFrom uses.length fuel
                    ((if uses.length ≤ last then 0 else last) + 1) from rfl] at hj
          rw [List.find?_cons_of_pos _ (by simp only [beq_iff_eq]; exact h0)] at hj
          exact (Option.some.inj hj).symm
        rw [this]
      · rw [if_neg h0]
        have hj' : (LoadBalancer.scanFrom uses.length fuel
            ((if uses.length ≤ last then 0 else last) + 1)).find?
              (fun x => uses.getD x 0 == 0) = some j := by
          rw [show LoadBalancer.scanFrom uses.length (fuel + 1) last
                = (if uses.length ≤ last then 0 else last) ::
                  LoadBalancer.scanFrom uses.length fuel
                    ((if uses.length ≤ last then 0 else last) + 1) from rfl] at hj
          rw [List.find?_cons_of_neg _ (by simp only [beq_iff_eq]; exact h0)] at hj
          exact hj
        by_cases hlt : uses.getD (if uses.length ≤ last then 0 else last) 0 < mu
        · rw [if_pos hlt]; exact ih _ _ _ j hj'
        · rw [if_neg hlt]; exact ih _ _ _ j hj'

/-- Slow path: if no visited slot is idle, the loop runs the full scan and
then atomically increments (modulo `2 ^ 64`) the slot selected by the
running-minimum accumulator. -/
theorem acquireGo_slow (uses : List Nat) :
    ∀ fuel last mu mi,
      (∀ j ∈ LoadBalancer.scanFrom uses.length fuel last, uses.getD j 0 ≠ 0) →
      ∃ lf, LoadBalancer.acquireGo uses fuel last mu mi =
        ((LoadBalancer.foldMin uses (LoadBalancer.scanFrom uses.length fuel last) (mu, mi)).2,
         uses.set
           (LoadBalancer.foldMin uses (LoadBalancer.scanFrom uses.length fuel last) (mu, mi)).2
           ((uses.getD
               (LoadBalancer.foldMin uses
                 (LoadBalancer.scanFrom uses.length fuel last) (mu, mi)).2 0 + 1) % U64),
         lf) := by
  intro fuel
  induction fuel with
  | zero => intro last mu mi _; exact ⟨last, rfl⟩
  | succ fuel ih =>
      intro last mu mi hall
      have hhd : uses.getD (if uses.length ≤ last then 0 else last) 0 ≠ 0 := by
        refine hall _ ?_
        rw [show LoadBalancer.scanFrom uses.length (fuel + 1) last
              = (if uses.length ≤ last then 0 else last) ::
                LoadBalancer.scanFrom uses.length fuel
                  ((if uses.length ≤ last then 0 else last) + 1) from rfl]
        exact List.mem_cons_self _ _
      have htl : ∀ j ∈ LoadBalancer.scanFrom uses.length fuel
          ((if uses.length ≤ last then 0 else last) + 1), uses.getD j 0 ≠ 0 := by
        intro j hj
        refine hall j ?_
        rw [show LoadBalancer.scanFrom uses.length (fuel + 1) last
              = (if uses.length ≤ last then 0 else last) ::
                LoadBalancer.scanFrom uses.length fuel
                  ((if uses.length ≤ last then 0 else last) + 1) from rfl]
        exact List.mem_cons_of_mem _ hj
      rw [acquireGo_succ, if_neg hhd]
      rw [show LoadBalancer.scanFrom uses.length (fuel + 1) last
            = (if uses.length ≤ last then 0 else last) ::
              LoadBalancer.scanFrom uses.length fuel
                ((if uses.length ≤ last then 0 else last) + 1) from rfl]
      by_cases hlt : uses.getD (if uses.length ≤ last then 0 else last) 0 < mu
      · rw [if_pos hlt]
        have hfold : LoadBalancer.foldMin uses
            ((if uses.length ≤ last then 0 else last) ::
              LoadBalancer.scanFrom uses.length fuel
                ((if uses.length ≤ last then 0 else last) + 1)) (mu, mi)
            = LoadBalancer.foldMin uses
                (LoadBalancer.scanFrom uses.length fuel
                  ((if uses.length ≤ last then 0 else last) + 1))
                (uses.getD (if uses.length ≤ last then 0 else last) 0,
                 (if uses.length ≤ last then 0 else last)) := by
          show (if _ < _ then _ else _) = _
          rw [if_pos hlt]
        rw [hfold]
        exact ih _ _ _ htl
      · rw [if_neg hlt]
        have hfold : LoadBalancer.foldMin uses
            ((if uses.length ≤ last then 0 else last) ::
              LoadBalancer.scanFrom uses.length fuel
                ((if uses.length ≤ last then 0 else last) + 1)) (mu, mi)
            = LoadBalancer.foldMin uses
                (LoadBalancer.scanFrom uses.length fuel
                  ((if uses.length ≤ last then 0 else last) + 1)) (mu, mi) := by
          show (if _ < _ then _ else _) = _
          rw [if_neg hlt]
        rw [hfold]
        exact ih _ _ _ htl

theorem scanSeq_eq (n last : Nat) :
    LoadBalancer.scanFrom n n last = LoadBalancer.scanSeq n last := rfl

/-- Claim C1 (amended): `LoadBalancer::acquire` scans all `n` slots starting
from the thread-local rotating offset, wrapping around; it returns the first
slot in scan order whose counter a compare-and-swap moves from 0 to 1, and if
no slot is idle it atomically increments and returns a slot holding the
smallest usage value observed during the scan, breaking ties toward the
first-seen minimum in scan order — the tie-break statement holding provided
every usage counter is below `2 ^ 64 - 1` (`SIZE_MAX`, the scan's initial
minimum sentinel; the amendment the counterexample below forces). -/
theorem C1_acquire_characterization (uses : List Nat) (last : Nat)
    (hn : 0 < uses.length) (hb : ∀ x ∈ uses, x < USIZE_MAX) :
    match (LoadBalancer.scanSeq uses.length last).find? (fun j => uses.getD j 0 == 0) with
    | some j =>
        (LoadBalancer.acquire uses last).1 = j ∧
        (LoadBalancer.acquire uses last).2.1 = uses.set j 1
    | none =>
        (∀ j, j < uses.length →
          uses.getD (LoadBalancer.acquire uses last).1 0 ≤ uses.getD j 0) ∧
        (LoadBalancer.scanSeq uses.length last).find?
            (fun j => uses.getD j 0 == uses.getD (LoadBalancer.acquire uses last).1 0)
          = some (LoadBalancer.acquire uses last).1 ∧
        (LoadBalancer.acquire uses last).2.1 =
          uses.set (LoadBalancer.acquire uses last).1
            ((uses.getD (LoadBalancer.acquire uses last).1 0 + 1) % U64) := by
  cases hfind : (LoadBalancer.scanSeq uses.length last).find? (fun j => uses.getD j 0 == 0) with
  | some j =>
      have hacq : LoadBalancer.acquire uses last = (j, uses.set j 1, j) :=
        acquireGo_fast uses uses.length last USIZE_MAX 0 j
          (by rw [scanSeq_eq]; exact hfind)
      show (LoadBalancer.acquire uses last).1 = j ∧
        (LoadBalancer.acquire uses last).2.1 = uses.set j 1
      rw [hacq]
      exact ⟨rfl, rfl⟩
  | none =>
      show (∀ j, j < uses.length →
          uses.getD (LoadBalancer.acquire uses last).1 0 ≤ uses.getD j 0) ∧
        (LoadBalancer.scanSeq uses.length last).find?
            (fun j => uses.getD j 0 == uses.getD (LoadBalancer.acquire uses last).1 0)
          = some (LoadBalancer.acquire uses last).1 ∧
        (LoadBalancer.acquire uses last).2.1 =
          uses.set (LoadBalancer.acquire uses last).1
            ((uses.getD (LoadBalancer.acquire uses last).1 0 + 1) % U64)
      have hall : ∀ j ∈ LoadBalancer.scanSeq uses.length last, uses.getD j 0 ≠ 0 := by
        intro j hj
        have h := List.find?_eq_none.mp hfind j hj
        simp only [beq_iff_eq] at h
        exact h
      obtain ⟨lf, heq⟩ :=
        acquireGo_slow uses uses.length last USIZE_MAX 0 (by rw [scanSeq_eq]; exact hall)
      rw [scanSeq_eq] at heq
      have h0mem : (0 : Nat) ∈ LoadBalancer.scanSeq uses.length last :=
        mem_scanSeq uses.length last 0 hn hn
      have h0lt : uses.getD 0 0 < USIZE_MAX := hb _ (getD_mem uses 0 0 hn)
      obtain ⟨h1, h2, h3, h4⟩ :=
        foldMin_found uses (LoadBalancer.scanSeq uses.length last) USIZE_MAX 0
          ⟨0, h0mem, h0lt⟩
      have hacq : LoadBalancer.acquire uses last =
          ((LoadBalancer.foldMin uses (LoadBalancer.scanSeq uses.length last)
              (USIZE_MAX, 0)).2,
           uses.set
             (LoadBalancer.foldMin uses (LoadBalancer.scanSeq uses.length last)
               (USIZE_MAX, 0)).2
             ((uses.getD
                 (LoadBalancer.foldMin uses (LoadBalancer.scanSeq uses.length last)
                   (USIZE_MAX, 0)).2 0 + 1) % U64),
           lf) := heq
      rw [hacq]
      refine ⟨?_, ?_, rfl⟩
      · show ∀ j, j < uses.length →
          uses.getD (LoadBalancer.foldMin uses
            (LoadBalancer.scanSeq uses.length last) (USIZE_MAX, 0)).2 0 ≤ uses.getD j 0
        intro j hj
        rw [h3]
        exact h2 j (mem_scanSeq uses.length last j hn hj)
      · show (LoadBalancer.scanSeq uses.length last).find?
            (fun j => uses.getD j 0 ==
              uses.getD (LoadBalancer.foldMin uses
                (LoadBalancer.scanSeq uses.length last) (USIZE_MAX, 0)).2 0)
          = some (LoadBalancer.foldMin uses
              (LoadBalancer.scanSeq uses.length last) (USIZE_MAX, 0)).2
        rw [h3]
        exact h4

/-- Claim C1 witness: in the pool `[1, 0, 2]` with cursor 2, the scan order is
2, 0, 1; slot 1 is the first idle slot and is returned with its counter set
to 1. -/
theorem C1_acquire_characterization_witness :
    ((0 < ([1, 0, 2] : List Nat).length ∧ (∀ x ∈ ([1, 0, 2] : List Nat), x < USIZE_MAX)) ∧
      ((LoadBalancer.acquire [1, 0, 2] 2).1 = 1 ∧
        (LoadBalancer.acquire [1, 0, 2] 2).2.1 = [1, 1, 2])) :=
  ⟨⟨by decide, by decide⟩,
    C1_acquire_characterization [1, 0, 2] 2 (by decide) (by decide)⟩

/-- Claim C1 counterexample: with both counters at `2 ^ 64 - 1` (`SIZE_MAX`,
a state reachable by an unmatched `free` on an idle slot) and the rotating
cursor at 1, the scan order is 1, 0 and the first-seen minimum in scan order
is slot 1; but `prev < minusers` never fires against the `SIZE_MAX` sentinel,
so the code returns the initial `min_idx = 0`, not slot 1 as the claim as
stated requires. -/
theorem C1_tie_break_counterexample :
    (LoadBalancer.acquire [USIZE_MAX, USIZE_MAX] 1).1 = 0 ∧
    (LoadBalancer.scanSeq 2 1).find?
        (fun j => ([USIZE_MAX, USIZE_MAX] : List Nat).getD j 0
          == ([USIZE_MAX, USIZE_MAX] : List Nat).getD
               (LoadBalancer.acquire [USIZE_MAX, USIZE_MAX] 1).1 0)
      = some 1 ∧
    (0 : Nat) ≠ 1 := by decide

/-! ### Acquire/free pairing and counter integrity (claim C2) -/

/-- Whatever path the scan takes, `acquire` returns an in-range slot and its
only effect on the counters is to bump that slot by one (a successful CAS
from 0 to 1 on the fast path, `__atomic_fetch_add` on the slow path). -/
theorem acquireGo_shape (uses : List Nat) :
    ∀ fuel last mu mi, mi < uses.length →
      (LoadBalancer.acquireGo uses fuel last mu mi).1 < uses.length ∧
      (LoadBalancer.acquireGo uses fuel last mu mi).2.1 =
        uses.set (LoadBalancer.acquireGo uses fuel last mu mi).1
          ((uses.getD (LoadBalancer.acquireGo uses fuel last mu mi).1 0 + 1) % U64) := by
  intro fuel
  induction fuel with
  | zero => intro last mu mi hmi; exact ⟨hmi, rfl⟩
  | succ fuel ih =>
      intro last mu mi hmi
      rw [acquireGo_succ]
      by_cases h0 : uses.getD (if uses.length ≤ last then 0 else last) 0 = 0
      · rw [if_pos h0]
        refine ⟨by split <;> omega, ?_⟩
        show uses.set _ 1 = uses.set _ ((uses.getD (if uses.length ≤ last then 0 else last) 0 + 1) % U64)
        rw [h0]
        norm_num [U64]
      · rw [if_neg h0]
        by_cases hlt : uses.getD (if uses.length ≤ last then 0 else last) 0 < mu
        · rw [if_pos hlt]
          exact ih _ _ _ (by split <;> omega)
        · rw [if_neg hlt]
          exact ih _ _ _ hmi

theorem acquire_shape (uses : List Nat) (last : Nat) (hn : 0 < uses.length) :
    (LoadBalancer.acquire uses last).1 < uses.length ∧
    (LoadBalancer.acquire uses last).2.1 =
      uses.set (LoadBalancer.acquire uses last).1
        ((uses.getD (LoadBalancer.acquire uses last).1 0 + 1) % U64) :=
  acquireGo_shape uses uses.length last USIZE_MAX 0 hn

/-- A `free` of the slot just returned by `acquire` restores the counters to
their exact pre-acquire values. -/
theorem free_acquire_restore (uses : List Nat) (last : Nat)
    (hn : 0 < uses.length) (hb : ∀ x ∈ uses, x < U64) :
    LoadBalancer.free (LoadBalancer.acquire uses last).2.1
      (LoadBalancer.acquire uses last).1 = uses := by
  obtain ⟨hi, hset⟩ := acquire_shape uses last hn
  rw [hset]
  unfold LoadBalancer.free
  rw [getD_set_self _ _ _ _ hi, List.set_set]
  have hU : 0 < U64 := by norm_num [U64]
  have hv : uses.getD (LoadBalancer.acquire uses last).1 0 < U64 :=
    hb _ (getD_mem uses _ 0 hi)
  have harith : (((uses.getD (LoadBalancer.acquire uses last).1 0 + 1) % U64) + (U64 - 1)) % U64
      = uses.getD (LoadBalancer.acquire uses last).1 0 := by
    rw [Nat.mod_add_mod]
    rw [(by omega : uses.getD (LoadBalancer.acquire uses last).1 0 + 1 + (U64 - 1)
        = uses.getD (LoadBalancer.acquire uses last).1 0 + U64)]
    rw [Nat.add_mod_right]
    exact Nat.mod_eq_of_lt hv
  rw [harith]
  exact set_getD_self uses _ 0 hi

/-- An operation against the load balancer: an `acquire` call, or a `free` of
a given slot index. -/
inductive LBOp where
  | acq : LBOp
  | free : Nat → LBOp
deriving Repr, DecidableEq

/-- Balancer counters together with the single-thread rotating cursor and a
ghost tally `outst` of the outstanding (acquired but not yet freed)
sessions per slot. -/
structure LBState where
  uses : List Nat
  last : Nat
  outst : List Nat
deriving Repr, DecidableEq

/-- Run a sequence of balancer operations.  A `free` that does not match an
outstanding `acquire` of that slot (the contract violation the spec rules
out) aborts the run with `none`. -/
def runOps : List LBOp → LBState → Option LBState
  | [], st => some st
  | LBOp.acq :: rest, st =>
      runOps rest
        { uses := (LoadBalancer.acquire st.uses st.last).2.1,
          last := (LoadBalancer.acquire st.uses st.last).2.2,
          outst := st.outst.set (LoadBalancer.acquire st.uses st.last).1
            (st.outst.getD (LoadBalancer.acquire st.uses st.last).1 0 + 1) }
  | LBOp.free i :: rest, st =>
      if st.outst.getD i 0 = 0 then none
      else runOps rest
        { uses := LoadBalancer.free st.uses i, last := st.last,
          outst := st.outst.set i (st.outst.getD i 0 - 1) }

/-- Claim C2: (i) freeing the slot an `acquire` returned restores that slot's
counter to its pre-acquire value, and (ii) under any sequence of `acquire`
and `free` calls in which every `free` matches an outstanding `acquire`
(the spec's usage contract), the usage counters always remain exactly the
per-slot count of outstanding acquisitions — plain non-negative tallies, with
no decrement ever applied to a zero counter (so the unsigned counters never
underflow to a "negative" value). -/
theorem C2_acquire_free_counters :
    (∀ uses last, 0 < uses.length → (∀ x ∈ uses, x < U64) →
      LoadBalancer.free (LoadBalancer.acquire uses last).2.1
        (LoadBalancer.acquire uses last).1 = uses) ∧
    (∀ ops : List LBOp, ∀ st st' : LBState,
      st.uses = st.outst → 0 < st.uses.length →
      (∀ x ∈ st.outst, x + ops.length < U64) →
      runOps ops st = some st' → st'.uses = st'.outst) := by
  constructor
  · exact free_acquire_restore
  · intro ops
    induction ops with
    | nil =>
        intro st st' hinv hn _ hrun
        cases hrun
        exact hinv
    | cons op rest ih =>
        intro st st' hinv hn hb hrun
        cases op with
        | acq =>
            obtain ⟨hi, hset⟩ := acquire_shape st.uses st.last hn
            refine ih _ st' ?_ ?_ ?_ hrun
            · show (LoadBalancer.acquire st.uses st.last).2.1
                = st.outst.set (LoadBalancer.acquire st.uses st.last).1
                    (st.outst.getD (LoadBalancer.acquire st.uses st.last).1 0 + 1)
              rw [hset, hinv]
              have hv : st.outst.getD (LoadBalancer.acquire st.uses st.last).1 0 + 1 < U64 := by
                have hmem : st.outst.getD (LoadBalancer.acquire st.uses st.last).1 0 ∈ st.outst :=
                  getD_mem _ _ 0 (by rw [← hinv]; exact hi)
                have := hb _ hmem
                simp only [List.length_cons] at this
                omega
              rw [hinv] at hv
              rw [Nat.mod_eq_of_lt hv]
            · show 0 < (LoadBalancer.acquire st.uses st.last).2.1.length
              rw [hset]
              simpa using hn
            · intro x hx
              rcases List.mem_or_eq_of_mem_set hx with hx | rfl
              · have := hb x hx
                simp only [List.length_cons] at this ⊢
                omega
              · have hmem : st.outst.getD (LoadBalancer.acquire st.uses st.last).1 0 ∈ st.outst :=
                  getD_mem _ _ 0 (by rw [← hinv]; exact hi)
                have := hb _ hmem
                simp only [List.length_cons] at this ⊢
                omega
        | free i =>
            by_cases hz : st.outst.getD i 0 = 0
            · rw [show runOps (LBOp.free i :: rest) st
                  = if st.outst.getD i 0 = 0 then none
                    else runOps rest
                      { uses := LoadBalancer.free st.uses i, last := st.last,
                        outst := st.outst.set i (st.outst.getD i 0 - 1) } from rfl,
                  if_pos hz] at hrun
              cases hrun
            · rw [show runOps (LBOp.free i :: rest) st
                  = if st.outst.getD i 0 = 0 then none
                    else runOps rest
                      { uses := LoadBalancer.free st.uses i, last := st.last,
                        outst := st.outst.set i (st.outst.getD i 0 - 1) } from rfl,
                  if_neg hz] at hrun
              have hiLt : i < st.outst.length := by
                by_contra hge
                exact hz (List.getD_eq_default _ _ (by omega))
              have hU : 0 < U64 := by norm_num [U64]
              have hv : st.outst.getD i 0 < U64 := by
                have := hb _ (getD_mem _ i 0 hiLt)
                simp only [List.length_cons] at this
                omega
              refine ih _ st' ?_ ?_ ?_ hrun
              · show LoadBalancer.free st.uses i
                  = st.outst.set i (st.outst.getD i 0 - 1)
                unfold LoadBalancer.free
                rw [hinv]
                rw [(by omega : st.outst.getD i 0 + (U64 - 1)
                    = (st.outst.getD i 0 - 1) + U64)]
                rw [Nat.add_mod_right, Nat.mod_eq_of_lt (by omega)]
              · show 0 < (LoadBalancer.free st.uses i).length
                unfold LoadBalancer.free
                simpa using hn
              · intro x hx
                rcases List.mem_or_eq_of_mem_set hx with hx | rfl
                · have := hb x hx
                  simp only [List.length_cons] at this ⊢
                  omega
                · have := hb _ (getD_mem _ i 0 hiLt)
                  simp only [List.length_cons] at this ⊢
                  omega

/-- Claim C2 witness: a concrete acquire/free pair restores `[2, 0]`, and a
concrete matched run of two acquires and two frees keeps the counters equal
to the outstanding tallies, ending back at zero. -/
theorem C2_acquire_free_counters_witness :
    (LoadBalancer.free (LoadBalancer.acquire [2, 0] 0).2.1
        (LoadBalancer.acquire [2, 0] 0).1 = [2, 0]) ∧
    (runOps [LBOp.acq, LBOp.acq, LBOp.free 0, LBOp.free 1]
        ⟨[0, 0], 0, [0, 0]⟩ = some ⟨[0, 0], 1, [0, 0]⟩ ∧
      (⟨[0, 0], 1, [0, 0]⟩ : LBState).uses = (⟨[0, 0], 1, [0, 0]⟩ : LBState).outst) :=
  ⟨C2_acquire_free_counters.1 [2, 0] 0 (by decide) (by decide),
   by decide,
   C2_acquire_free_counters.2 [LBOp.acq, LBOp.acq, LBOp.free 0, LBOp.free 1]
     ⟨[0, 0], 0, [0, 0]⟩ ⟨[0, 0], 1, [0, 0]⟩ (by decide) (by decide) (by decide) (by decide)⟩

/-! ## Structured errors (`TORCH_CHECK` raising `c10::Error`) -/

/-- A structured error carrying a message: the uniform error kind raised at
this core's boundary by `TORCH_CHECK`. -/
inductive DeployError where
  | check : String → DeployError
deriving Repr, DecidableEq

/-! ## Embedded-image registration (claim C9) -/

/-- The file-scope pointers holding the embedded image byte ranges
(deploy.cpp lines 9-12).  Pointers are modelled as `Nat` addresses with `0`
playing the role of `nullptr`. -/
structure EmbeddedRegistry where
  so_start : Nat
  so_end : Nat
  cuda_so_start : Nat
  cuda_so_end : Nat
deriving Repr, DecidableEq

/-- `register_embedded_interpreter` (deploy.cpp lines 14-23): three
`TORCH_CHECK` preconditions — non-null `lib_start`, non-null `lib_end`,
positive byte range (`lib_end - lib_start > 0` as a pointer difference) —
then records the pair in the process-wide registry. -/
def register_embedded_interpreter (reg : EmbeddedRegistry) (lib_start lib_end : Nat) :
    Except DeployError EmbeddedRegistry :=
  if lib_start = 0 then Except.error (DeployError.check "expected non-null lib_start")
  else if lib_end = 0 then Except.error (DeployError.check "expected non-null lib_end")
  else if ¬ lib_start < lib_end then
    Except.error (DeployError.check "expected embedded_interpreter_libsize > 0")
  else Except.ok { reg with so_start := lib_start, so_end := lib_end }

/-- `register_embedded_interpreter_cuda` (deploy.cpp lines 29-39, present in
the `FBCODE_CAFFE2` build configuration): the same three checks for the
accelerator-enabled image. -/
def register_embedded_interpreter_cuda (reg : EmbeddedRegistry) (lib_start lib_end : Nat) :
    Except DeployError EmbeddedRegistry :=
  if lib_start = 0 then Except.error (DeployError.check "expected non-null lib_start")
  else if lib_end = 0 then Except.error (DeployError.check "expected non-null lib_end")
  else if ¬ lib_start < lib_end then
    Except.error (DeployError.check "expected embedded_interpreter_cuda_libsize > 0")
  else Except.ok { reg with cuda_so_start := lib_start, cuda_so_end := lib_end }

/-! ## Interpreter pool, sessions, and the replicated-object protocol -/

/-- An opaque value handle inside one interpreter (`Obj`). -/
abbrev Obj := Nat

/-- An opaque serialized payload (the pickled bytes held by a
`ReplicatedObjImpl`). -/
abbrev Payload := List Nat

/-- Modelled from the spec: the embedded interpreter implementation is an
opaque capability; its serialization operations are supplied as functions.
`pickle` receives the session's current `self` value as context, as
`impl_->pickle(self, obj)` does. -/
structure ImplCapability where
  pickle : Option Obj → Obj → Payload
  deserialize : Payload → Obj

/-- Modelled from the spec: one interpreter instance's materialization cache,
keyed by object id (consulted by `unpickle_or_get`, cleared per-id by the
implementation-side `unload`). -/
structure InterpState where
  cache : List (Nat × Obj)
deriving Repr, DecidableEq

/-- Observable events of a run: a session acquisition on an interpreter, an
implementation-level unload of an object id on an interpreter, and a
balancer-slot release performed by a session destructor. -/
inductive Event where
  | acquireSession : Nat → Event
  | implUnload : Nat → Nat → Event
  | balancerFree : Nat → Event
deriving Repr, DecidableEq

/-- The state owned by one `InterpreterManager`: the interpreter capability,
the fixed pool of instances, the `LoadBalancer` counters (`resources_`), the
calling thread's rotating cursor, the `next_object_id_` counter, and a log of
observable events. -/
structure ManagerState where
  cap : ImplCapability
  interps : List InterpState
  resources : List Nat
  lastOffset : Nat
  next_object_id : Nat
  log : List Event

/-- An `InterpreterSession`: which interpreter implementation it borrows,
whether its `manager_` back-pointer is set, the `notify_idx_` slot tag
(`-1` unless the session came from load-balanced acquisition), and the
session's current `self` value. -/
structure InterpreterSession where
  interpIdx : Nat
  hasManager : Bool
  notify_idx : Int
  self : Option Obj
deriving Repr, DecidableEq

/-- A `ReplicatedObjImpl`: the unique object id and the immutable pickled
payload; the `manager_` back-reference is implicit in this single-manager
model, whose `ManagerState` is threaded alongside. -/
structure ReplicatedObjImpl where
  object_id : Nat
  data : Payload
deriving Repr, DecidableEq

/-- A `ReplicatedObj` is a reference-counted shared handle to one
`ReplicatedObjImpl`. -/
structure ReplicatedObj where
  pImpl : ReplicatedObjImpl
deriving Repr, DecidableEq

/-- Modelled from the spec: `Interpreter::acquire_session` (declared in
`deploy.h`, outside the verified sources) — binding directly to a specific
interpreter yields a session with no slot-release obligation
(`notify_idx_ = -1`) and no manager binding for movable-object creation. -/
def Interpreter.acquire_session (i : Nat) (m : ManagerState) :
    InterpreterSession × ManagerState :=
  ({ interpIdx := i, hasManager := false, notify_idx := -1, self := none },
   { m with log := m.log ++ [Event.acquireSession i] })

/-- Modelled from the spec: `InterpreterManager::acquire_one` (declared in
`deploy.h`, outside the verified sources) — asks the `LoadBalancer` for a
slot and returns a session bound to that interpreter, tagged with the slot
index for release on destruction. -/
def InterpreterManager.acquire_one (m : ManagerState) :
    InterpreterSession × ManagerState :=
  let slot := (LoadBalancer.acquire m.resources m.lastOffset).1
  let m1 := { m with resources := (LoadBalancer.acquire m.resources m.lastOffset).2.1,
                     lastOffset := (LoadBalancer.acquire m.resources m.lastOffset).2.2 }
  let p := Interpreter.acquire_session slot m1
  ({ p.1 with hasManager := true, notify_idx := Int.ofNat slot }, p.2)

/-- `InterpreterSession::~InterpreterSession` (deploy.cpp lines 119-123):
`if (manager_ && notify_idx_ >= 0) manager_->resources_.free(notify_idx_);` -/
def InterpreterSession.destruct (s : InterpreterSession) (m : ManagerState) :
    ManagerState :=
  if s.hasManager = true ∧ 0 ≤ s.notify_idx then
    { m with resources := LoadBalancer.free m.resources s.notify_idx.toNat,
             log := m.log ++ [Event.balancerFree s.notify_idx.toNat] }
  else m

/-- Modelled from the spec: the implementation-side `unpickle_or_get` — look
up an already-materialized object by id in this instance's cache, else
deserialize the payload fresh and associate it with that id for future
lookups in this instance. -/
def unpickle_or_get (cap : ImplCapability) (st : InterpState) (id : Nat)
    (data : Payload) : Obj × InterpState :=
  match st.cache.lookup id with
  | some v => (v, st)
  | none => (cap.deserialize data, ⟨(id, cap.deserialize data) :: st.cache⟩)

/-- `InterpreterSession::from_movable` (deploy.cpp lines 101-105):
`impl_->unpickle_or_get(obj.pImpl_->object_id_, obj.pImpl_->data_)`. -/
def InterpreterSession.from_movable (s : InterpreterSession) (m : ManagerState)
    (r : ReplicatedObj) : Obj × ManagerState :=
  let st := m.interps.getD s.interpIdx ⟨[]⟩
  let q := unpickle_or_get m.cap st r.pImpl.object_id r.pImpl.data
  (q.1, { m with interps := m.interps.set s.interpIdx q.2 })

/-- `ReplicatedObj::acquire_session` (deploy.cpp lines 107-116): bind to the
given interpreter if one is specified, otherwise load-balance through the
owning manager (`acquire_one`); then materialize the object into the session
(`I.self = I.from_movable(*this)`) before returning it. -/
def ReplicatedObj.acquire_session (r : ReplicatedObj) (onThis : Option Nat)
    (m : ManagerState) : InterpreterSession × ManagerState :=
  let p := match onThis with
    | some i => Interpreter.acquire_session i m
    | none => InterpreterManager.acquire_one m
  let q := InterpreterSession.from_movable p.1 p.2 r
  ({ p.1 with self := some q.1 }, q.2)

/-- The `TORCH_CHECK` message of `InterpreterSession::create_movable`
(deploy.cpp lines 153-155). -/
def createMovableErrMsg : String :=
  "Can only create a movable object when the session was created from an interpreter that is part of a InterpreterManager"

/-- `InterpreterSession::create_movable` (deploy.cpp lines 151-160):
`TORCH_CHECK(manager_, ...)`, then pickle the object's value with the
session's `self` as context, allocate `next_object_id_++`, and wrap id,
payload and the manager back-reference in a new reference-counted
`ReplicatedObjImpl`. -/
def InterpreterSession.create_movable (s : InterpreterSession) (m : ManagerState)
    (obj : Obj) : Except DeployError (ReplicatedObjImpl × ManagerState) :=
  if s.hasManager = false then Except.error (DeployError.check createMovableErrMsg)
  else
    Except.ok ({ object_id := m.next_object_id, data := m.cap.pickle s.self obj },
      { m with next_object_id := m.next_object_id + 1 })

/-- Modelled from the spec: the implementation-side `unload(id)` — drop this
instance's materialization of that object id from its cache. -/
def implUnload (st : InterpState) (id : Nat) : InterpState :=
  ⟨st.cache.filter (fun p => p.1 != id)⟩

/-- One arm of `ReplicatedObjImpl::unload` (deploy.cpp lines 135-136):
acquire a session directly on the target interpreter, instruct that
session's implementation to drop the materialization for this id, then let
the (slot-tag-free) session be destroyed. -/
def unloadOnInterpreter (r : ReplicatedObjImpl) (i : Nat) (m : ManagerState) :
    ManagerState :=
  let p := Interpreter.acquire_session i m
  let m2 := { p.2 with
    interps := p.2.interps.set i (implUnload (p.2.interps.getD i ⟨[]⟩) r.object_id),
    log := p.2.log ++ [Event.implUnload i r.object_id] }
  InterpreterSession.destruct p.1 m2

/-- `ReplicatedObjImpl::unload` (deploy.cpp lines 125-138): with no specific
interpreter, recursively unload on every interpreter of the manager's pool
(`all_instances()`, in pool order); with one, unload only there. -/
def ReplicatedObjImpl.unload (r : ReplicatedObjImpl) (onThis : Option Nat)
    (m : ManagerState) : ManagerState :=
  match onThis with
  | some i => unloadOnInterpreter r i m
  | none => (List.range m.interps.length).foldl (fun acc i => unloadOnInterpreter r i acc) m

/-- `ReplicatedObjImpl::~ReplicatedObjImpl` (deploy.cpp lines 141-143): the
destructor — run when the last `ReplicatedObj` handle dies — performs the
all-instances unload. -/
def ReplicatedObjImpl.dtor (r : ReplicatedObjImpl) (m : ManagerState) : ManagerState :=
  r.unload none m

/-- `ReplicatedObj::unload` (deploy.cpp lines 145-149): delegates to the
shared impl. -/
def ReplicatedObj.unload (r : ReplicatedObj) (onThis : Option Nat)
    (m : ManagerState) : ManagerState :=
  r.pImpl.unload onThis m

/-- A sequence of `create_movable` calls (each through its own session, e.g.
from different threads, serialized by the atomicity of `next_object_id_++`),
collecting the object ids they allocate. -/
def createMovableAll : List (InterpreterSession × Obj) → ManagerState →
    ManagerState × List Nat
  | [], m => (m, [])
  | (s, o) :: rest, m =>
      match s.create_movable m o with
      | Except.error _ => createMovableAll rest m
      | Except.ok q =>
          let t := createMovableAll rest q.2
          (t.1, q.1.object_id :: t.2)

/-- The events logged by an all-instances unload sweep over the first `K`
pool interpreters, in pool order. -/
def unloadLog (id : Nat) : Nat → List Event
  | 0 => []
  | K + 1 => unloadLog id K ++ [Event.acquireSession K, Event.implUnload K id]

/-- The pool caches after the unload sweep has processed the first `K`
interpreters. -/
def partUnload (id : Nat) : List InterpState → Nat → List InterpState
  | [], _ => []
  | sts, 0 => sts
  | st :: rest, K + 1 => implUnload st id :: partUnload id rest K

/-! ### Registration precondition checks (claim C9) -/

/-- Claim C9: both embedded-interpreter registration entry points fail with a
structured error exactly when the start pointer is null, the end pointer is
null, or the byte range is empty or inverted (end not strictly after start);
when the checks pass they record the pointer pair in the process-wide
configuration. -/
theorem C9_register_embedded_interpreter_checks (reg : EmbeddedRegistry) (s e : Nat) :
    ((∃ err, register_embedded_interpreter reg s e = Except.error err) ↔
      (s = 0 ∨ e = 0 ∨ ¬ s < e)) ∧
    (s ≠ 0 → e ≠ 0 → s < e →
      register_embedded_interpreter reg s e
        = Except.ok { reg with so_start := s, so_end := e }) ∧
    ((∃ err, register_embedded_interpreter_cuda reg s e = Except.error err) ↔
      (s = 0 ∨ e = 0 ∨ ¬ s < e)) ∧
    (s ≠ 0 → e ≠ 0 → s < e →
      register_embedded_interpreter_cuda reg s e
        = Except.ok { reg with cuda_so_start := s, cuda_so_end := e }) := by
  refine ⟨?_, ?_, ?_, ?_⟩
  · unfold register_embedded_interpreter
    by_cases h1 : s = 0 <;> by_cases h2 : e = 0 <;> by_cases h3 : s < e <;>
      simp [h1, h2, h3]
  · intro h1 h2 h3
    unfold register_embedded_interpreter
    rw [if_neg h1, if_neg h2, if_neg (not_not_intro h3)]
  · unfold register_embedded_interpreter_cuda
    by_cases h1 : s = 0 <;> by_cases h2 : e = 0 <;> by_cases h3 : s < e <;>
      simp [h1, h2, h3]
  · intro h1 h2 h3
    unfold register_embedded_interpreter_cuda
    rw [if_neg h1, if_neg h2, if_neg (not_not_intro h3)]

/-- Claim C9 witness: a valid pointer pair (1, 5) passes both entry points'
checks and is recorded; the error characterization holds at null start. -/
theorem C9_register_embedded_interpreter_checks_witness :
    ((1 : Nat) ≠ 0 ∧ (5 : Nat) ≠ 0 ∧ (1 : Nat) < 5) ∧
    register_embedded_interpreter ⟨0, 0, 0, 0⟩ 1 5 = Except.ok ⟨1, 5, 0, 0⟩ ∧
    register_embedded_interpreter_cuda ⟨0, 0, 0, 0⟩ 1 5 = Except.ok ⟨0, 0, 1, 5⟩ ∧
    (∃ err, register_embedded_interpreter ⟨0, 0, 0, 0⟩ 0 5 = Except.error err) :=
  ⟨⟨by decide, by decide, by decide⟩,
   (C9_register_embedded_interpreter_checks ⟨0, 0, 0, 0⟩ 1 5).2.1
     (by decide) (by decide) (by decide),
   (C9_register_embedded_interpreter_checks ⟨0, 0, 0, 0⟩ 1 5).2.2.2
     (by decide) (by decide) (by decide),
   (C9_register_embedded_interpreter_checks ⟨0, 0, 0, 0⟩ 0 5).1.mpr
     (Or.inl rfl)⟩

/-! ### `create_movable` (claims C3 and C4) -/

/-- Claim C4: `create_movable` fails with the structured `TORCH_CHECK` error
exactly when the session carries no manager; on a manager-bound session it
pickles the object's value through the session's serialization capability,
allocates the next object id from the manager's counter (incrementing it),
and returns a `ReplicatedObjImpl` wrapping id and payload (with the manager
back-reference implicit in this single-manager model). -/
theorem C4_create_movable_checks_manager (s : InterpreterSession)
    (m : ManagerState) (obj : Obj) :
    ((∃ err, s.create_movable m obj = Except.error err) ↔ s.hasManager = false) ∧
    (s.hasManager = false →
      s.create_movable m obj = Except.error (DeployError.check createMovableErrMsg)) ∧
    (s.hasManager = true →
      s.create_movable m obj =
        Except.ok ({ object_id := m.next_object_id, data := m.cap.pickle s.self obj },
          { m with next_object_id := m.next_object_id + 1 })) := by
  unfold InterpreterSession.create_movable
  cases hM : s.hasManager <;> simp [hM]

/-- Claim C4 witness: a session not created through a manager is rejected
with the `TORCH_CHECK` message; a manager-bound one yields id 7 and the
pickled payload, bumping the counter to 8. -/
theorem C4_create_movable_checks_manager_witness :
    ((⟨0, false, -1, none⟩ : InterpreterSession).hasManager = false ∧
      (⟨0, true, -1, none⟩ : InterpreterSession).hasManager = true) ∧
    ((⟨0, false, -1, none⟩ : InterpreterSession).create_movable
        ⟨⟨fun _ o => [o], fun p => p.getD 0 0⟩, [], [], 0, 7, []⟩ 5
      = Except.error (DeployError.check createMovableErrMsg)) ∧
    ((⟨0, true, -1, none⟩ : InterpreterSession).create_movable
        ⟨⟨fun _ o => [o], fun p => p.getD 0 0⟩, [], [], 0, 7, []⟩ 5
      = Except.ok (⟨7, [5]⟩,
          ⟨⟨fun _ o => [o], fun p => p.getD 0 0⟩, [], [], 0, 8, []⟩)) :=
  ⟨⟨rfl, rfl⟩,
   (C4_create_movable_checks_manager ⟨0, false, -1, none⟩
     ⟨⟨fun _ o => [o], fun p => p.getD 0 0⟩, [], [], 0, 7, []⟩ 5).2.1 rfl,
   (C4_create_movable_checks_manager ⟨0, true, -1, none⟩
     ⟨⟨fun _ o => [o], fun p => p.getD 0 0⟩, [], [], 0, 7, []⟩ 5).2.2 rfl⟩

/-- Object ids allocated by a sequence of manager-bound `create_movable`
calls are consecutive from the manager's counter. -/
theorem createMovableAll_ids :
    ∀ (calls : List (InterpreterSession × Obj)) (m : ManagerState),
      (∀ c ∈ calls, c.1.hasManager = true) →
      (createMovableAll calls m).2 = List.range' m.next_object_id calls.length := by
  intro calls
  induction calls with
  | nil => intro m _; rfl
  | cons c rest ih =>
      intro m hall
      obtain ⟨s, o⟩ := c
      have hs : s.hasManager = true := hall (s, o) (List.mem_cons_self _ _)
      have hcm : s.create_movable m o =
          Except.ok ({ object_id := m.next_object_id, data := m.cap.pickle s.self o },
            { m with next_object_id := m.next_object_id + 1 }) := by
        unfold InterpreterSession.create_movable
        rw [if_neg (by simp [hs])]
      show (match s.create_movable m o with
        | Except.error _ => createMovableAll rest m
        | Except.ok q =>
            ((createMovableAll rest q.2).1, q.1.object_id :: (createMovableAll rest q.2).2)).2
        = List.range' m.next_object_id ((s, o) :: rest).length
      rw [hcm]
      show m.next_object_id ::
          (createMovableAll rest { m with next_object_id := m.next_object_id + 1 }).2
        = List.range' m.next_object_id ((s, o) :: rest).length
      rw [ih { m with next_object_id := m.next_object_id + 1 }
        (fun c hc => hall c (List.mem_cons_of_mem _ hc))]
      rw [List.length_cons, List.range'_succ m.next_object_id rest.length 1]

/-- Claim C3: the object ids assigned by `create_movable` (through any
manager-bound sessions, the per-call order being the serialization order of
the atomic `next_object_id_++`) are exactly the consecutive ids starting at
the manager's counter — pairwise distinct (unique across all `ReplicatedObj`
ever created by the manager) and strictly increasing in allocation order. -/
theorem C3_object_ids_unique_increasing
    (calls : List (InterpreterSession × Obj)) (m : ManagerState)
    (hall : ∀ c ∈ calls, c.1.hasManager = true) :
    (createMovableAll calls m).2 = List.range' m.next_object_id calls.length ∧
    (createMovableAll calls m).2.Nodup ∧
    List.Chain' (· < ·) (createMovableAll calls m).2 := by
  have h := createMovableAll_ids calls m hall
  have hp : List.Pairwise (· < ·) (List.range' m.next_object_id calls.length) := by
    exact List.pairwise_lt_range' ..
  refine ⟨h, ?_, ?_⟩
  · rw [h]
    exact hp.imp (fun hlt => Nat.ne_of_lt hlt)
  · rw [h]
    exact hp.chain'

/-- Claim C3 witness: two creations through manager-bound sessions allocate
ids 7 and 8 — distinct and increasing. -/
theorem C3_object_ids_unique_increasing_witness :
    (∀ c ∈ ([(⟨0, true, -1, none⟩, 5), (⟨1, true, -1, none⟩, 9)] :
        List (InterpreterSession × Obj)), c.1.hasManager = true) ∧
    ((createMovableAll [(⟨0, true, -1, none⟩, 5), (⟨1, true, -1, none⟩, 9)]
        ⟨⟨fun _ o => [o], fun p => p.getD 0 0⟩, [], [], 0, 7, []⟩).2 = List.range' 7 2 ∧
      (createMovableAll [(⟨0, true, -1, none⟩, 5), (⟨1, true, -1, none⟩, 9)]
        ⟨⟨fun _ o => [o], fun p => p.getD 0 0⟩, [], [], 0, 7, []⟩).2.Nodup ∧
      List.Chain' (· < ·)
        (createMovableAll [(⟨0, true, -1, none⟩, 5), (⟨1, true, -1, none⟩, 9)]
          ⟨⟨fun _ o => [o], fun p => p.getD 0 0⟩, [], [], 0, 7, []⟩).2) :=
  ⟨by decide,
   C3_object_ids_unique_increasing
     [(⟨0, true, -1, none⟩, 5), (⟨1, true, -1, none⟩, 9)]
     ⟨⟨fun _ o => [o], fun p => p.getD 0 0⟩, [], [], 0, 7, []⟩ (by decide)⟩

/-! ### Session destruction and slot release (claim C6) -/

/-- Destroying a session that carries no manager binding releases nothing. -/
theorem destruct_noManager (s : InterpreterSession) (mA : ManagerState)
    (h : s.hasManager = false) : s.destruct mA = mA := by
  unfold InterpreterSession.destruct
  rw [if_neg (by simp [h])]

/-- Claim C6: a session obtained through load-balanced acquisition
(`acquire_one`) carries the manager and the non-negative slot tag of the slot
the balancer returned, and its destruction performs exactly one
`LoadBalancer::free` of exactly that slot; a session bound directly to a
specific interpreter carries no manager and the `-1` tag, and its destruction
frees no slot. -/
theorem C6_destructor_frees_iff_load_balanced (m mA : ManagerState) (i : Nat) :
    ((InterpreterManager.acquire_one m).1.hasManager = true ∧
     (InterpreterManager.acquire_one m).1.notify_idx =
       Int.ofNat (LoadBalancer.acquire m.resources m.lastOffset).1 ∧
     0 ≤ (InterpreterManager.acquire_one m).1.notify_idx) ∧
    (InterpreterSession.destruct (InterpreterManager.acquire_one m).1 mA =
      { mA with
        resources := LoadBalancer.free mA.resources
          (LoadBalancer.acquire m.resources m.lastOffset).1,
        log := mA.log ++ [Event.balancerFree
          (LoadBalancer.acquire m.resources m.lastOffset).1] }) ∧
    ((Interpreter.acquire_session i m).1.hasManager = false ∧
     (Interpreter.acquire_session i m).1.notify_idx = -1 ∧
     InterpreterSession.destruct (Interpreter.acquire_session i m).1 mA = mA) := by
  refine ⟨⟨rfl, rfl, ?_⟩, ?_, rfl, rfl, destruct_noManager _ _ rfl⟩
  · show (0 : Int) ≤ Int.ofNat (LoadBalancer.acquire m.resources m.lastOffset).1
    exact Int.ofNat_nonneg _
  · show InterpreterSession.destruct
      ⟨(LoadBalancer.acquire m.resources m.lastOffset).1, true,
        Int.ofNat (LoadBalancer.acquire m.resources m.lastOffset).1, none⟩ mA = _
    unfold InterpreterSession.destruct
    rw [if_pos ⟨rfl, Int.ofNat_nonneg _⟩]
    rfl

/-! ### Materialization on session acquisition (claim C8) -/

/-- `unpickle_or_get` always leaves the returned materialization cached under
the requested object id. -/
theorem unpickle_or_get_lookup (cap : ImplCapability) (st : InterpState)
    (id : Nat) (data : Payload) :
    (unpickle_or_get cap st id data).2.cache.lookup id =
      some (unpickle_or_get cap st id data).1 := by
  unfold unpickle_or_get
  cases h : st.cache.lookup id with
  | some v => simp [h]
  | none => simp [h, List.lookup]

/-- Claim C8: `ReplicatedObj::acquire_session` binds directly to the given
interpreter when one is specified (no slot tag) and otherwise acquires a
load-balanced session through the manager (tagged with the balancer's slot);
in both cases the returned session's current value (`self`) is the object
materialized by `from_movable`, and after `from_movable` the session's
interpreter holds that materialization in its cache under the object's id. -/
theorem C8_acquire_session_materializes (r : ReplicatedObj) (m : ManagerState) (i : Nat) :
    ((r.acquire_session (some i) m).1.interpIdx = i ∧
     (r.acquire_session (some i) m).1.hasManager = false ∧
     (r.acquire_session (some i) m).1.notify_idx = -1 ∧
     (r.acquire_session (some i) m).1.self =
       some ((Interpreter.acquire_session i m).1.from_movable
         (Interpreter.acquire_session i m).2 r).1 ∧
     (r.acquire_session (some i) m).2 =
       ((Interpreter.acquire_session i m).1.from_movable
         (Interpreter.acquire_session i m).2 r).2) ∧
    ((r.acquire_session none m).1.interpIdx =
       (LoadBalancer.acquire m.resources m.lastOffset).1 ∧
     (r.acquire_session none m).1.hasManager = true ∧
     (r.acquire_session none m).1.notify_idx =
       Int.ofNat (LoadBalancer.acquire m.resources m.lastOffset).1 ∧
     (r.acquire_session none m).1.self =
       some ((InterpreterManager.acquire_one m).1.from_movable
         (InterpreterManager.acquire_one m).2 r).1 ∧
     (r.acquire_session none m).2 =
       ((InterpreterManager.acquire_one m).1.from_movable
         (InterpreterManager.acquire_one m).2 r).2) ∧
    (∀ (s : InterpreterSession) (mm : ManagerState) (rr : ReplicatedObj),
      s.interpIdx < mm.interps.length →
      ((s.from_movable mm rr).2.interps.getD s.interpIdx ⟨[]⟩).cache.lookup
          rr.pImpl.object_id
        = some (s.from_movable mm rr).1) := by
  refine ⟨⟨rfl, rfl, rfl, rfl, rfl⟩, ⟨rfl, rfl, rfl, rfl, rfl⟩, ?_⟩
  intro s mm rr hlt
  show ((mm.interps.set s.interpIdx
      (unpickle_or_get mm.cap (mm.interps.getD s.interpIdx ⟨[]⟩)
        rr.pImpl.object_id rr.pImpl.data).2).getD s.interpIdx ⟨[]⟩).cache.lookup
      rr.pImpl.object_id = _
  rw [getD_set_self _ _ _ _ hlt]
  exact unpickle_or_get_lookup mm.cap _ rr.pImpl.object_id rr.pImpl.data

/-- Claim C8 witness: materializing object id 3 with payload `[9]` into a
session on interpreter 0 of a one-instance pool caches value 9 under id 3 and
returns it as the session's value. -/
theorem C8_acquire_session_materializes_witness :
    ((0 : Nat) < ([⟨[]⟩] : List InterpState).length) ∧
    (((⟨0, false, -1, none⟩ : InterpreterSession).from_movable
        ⟨⟨fun _ o => [o], fun p => p.getD 0 0⟩, [⟨[]⟩], [0], 0, 0, []⟩
        ⟨⟨3, [9]⟩⟩).2.interps.getD 0 ⟨[]⟩).cache.lookup 3
      = some ((⟨0, false, -1, none⟩ : InterpreterSession).from_movable
          ⟨⟨fun _ o => [o], fun p => p.getD 0 0⟩, [⟨[]⟩], [0], 0, 0, []⟩
          ⟨⟨3, [9]⟩⟩).1 :=
  ⟨by decide,
   (C8_acquire_session_materializes ⟨⟨3, [9]⟩⟩
       ⟨⟨fun _ o => [o], fun p => p.getD 0 0⟩, [⟨[]⟩], [0], 0, 0, []⟩ 0).2.2
     ⟨0, false, -1, none⟩
     ⟨⟨fun _ o => [o], fun p => p.getD 0 0⟩, [⟨[]⟩], [0], 0, 0, []⟩
     ⟨⟨3, [9]⟩⟩ (by decide)⟩

/-! ### The all-instances unload sweep (claims C5 and C10) -/

theorem partUnload_zero (id : Nat) (l : List InterpState) : partUnload id l 0 = l := by
  cases l <;> rfl

theorem partUnload_full (id : Nat) :
    ∀ l : List InterpState,
      partUnload id l l.length = l.map (fun st => implUnload st id) := by
  intro l
  induction l with
  | nil => rfl
  | cons st rest ih => simp [partUnload, ih]

theorem partUnload_getD (id : Nat) :
    ∀ (l : List InterpState) (K : Nat),
      (partUnload id l K).getD K ⟨[]⟩ = l.getD K ⟨[]⟩ := by
  intro l
  induction l with
  | nil => intro K; cases K <;> rfl
  | cons st rest ih =>
      intro K
      cases K with
      | zero => rw [partUnload_zero]
      | succ K => simpa [partUnload] using ih K

theorem partUnload_set (id : Nat) :
    ∀ (l : List InterpState) (K : Nat), K < l.length →
      (partUnload id l K).set K (implUnload (l.getD K ⟨[]⟩) id) = partUnload id l (K + 1) := by
  intro l
  induction l with
  | nil => intro K hK; simp at hK
  | cons st rest ih =>
      intro K hK
      cases K with
      | zero =>
          rw [partUnload_zero]
          show implUnload st id :: rest = implUnload st id :: partUnload id rest 0
          rw [partUnload_zero]
      | succ K =>
          show (implUnload st id :: partUnload id rest K).set (K + 1) _ = _
          simpa [partUnload] using ih K (by simpa using hK)

/-- One sweep step: unloading on interpreter `K` drops that instance's cache
entry for the id, logs the session acquisition and the implementation-level
unload, and (the session being slot-tag-free) changes nothing else. -/
theorem unloadOnInterpreter_eq (r : ReplicatedObjImpl) (K : Nat) (macc : ManagerState) :
    unloadOnInterpreter r K macc =
      { macc with
        interps := macc.interps.set K (implUnload (macc.interps.getD K ⟨[]⟩) r.object_id),
        log := (macc.log ++ [Event.acquireSession K]) ++ [Event.implUnload K r.object_id] } := by
  unfold unloadOnInterpreter
  rw [destruct_noManager _ _ rfl]
  rfl

/-- The all-instances sweep over the first `K` pool entries, in closed form. -/
theorem unload_fold (r : ReplicatedObjImpl) (m : ManagerState) :
    ∀ K, K ≤ m.interps.length →
      (List.range K).foldl (fun acc i => unloadOnInterpreter r i acc) m =
        { m with interps := partUnload r.object_id m.interps K,
                 log := m.log ++ unloadLog r.object_id K } := by
  intro K
  induction K with
  | zero =>
      intro _
      rw [partUnload_zero]
      show m = _
      simp [unloadLog]
  | succ K ih =>
      intro hK
      rw [List.range_succ, List.foldl_append]
      rw [ih (by omega)]
      rw [List.foldl_cons, List.foldl_nil]
      rw [unloadOnInterpreter_eq]
      have hKlt : K < m.interps.length := by omega
      show ({ m with
          interps := (partUnload r.object_id m.interps K).set K
            (implUnload ((partUnload r.object_id m.interps K).getD K ⟨[]⟩) r.object_id),
          log := ((m.log ++ unloadLog r.object_id K) ++ [Event.acquireSession K]) ++
            [Event.implUnload K r.object_id] } : ManagerState) = _
      rw [partUnload_getD, partUnload_set r.object_id m.interps K hKlt]
      simp [unloadLog, List.append_assoc]

/-- Per-interpreter occurrence counts in the sweep log. -/
theorem unloadLog_count (id : Nat) :
    ∀ K i, ((unloadLog id K).count (Event.acquireSession i) = if i < K then 1 else 0) ∧
      ((unloadLog id K).count (Event.implUnload i id) = if i < K then 1 else 0) := by
  intro K
  induction K with
  | zero => intro i; simp [unloadLog]
  | succ K ih =>
      intro i
      obtain ⟨h1, h2⟩ := ih i
      have hpair1 : ([Event.acquireSession K, Event.implUnload K id] : List Event).count
          (Event.acquireSession i) = if i = K then 1 else 0 := by
        by_cases hi : i = K <;> simp [hi, List.count_cons]
      have hpair2 : ([Event.acquireSession K, Event.implUnload K id] : List Event).count
          (Event.implUnload i id) = if i = K then 1 else 0 := by
        by_cases hi : i = K <;> simp [hi, List.count_cons]
      constructor
      · show (unloadLog id K ++ [Event.acquireSession K, Event.implUnload K id]).count
          (Event.acquireSession i) = _
        rw [List.count_append, h1, hpair1]
        split_ifs <;> omega
      · show (unloadLog id K ++ [Event.acquireSession K, Event.implUnload K id]).count
          (Event.implUnload i id) = _
        rw [List.count_append, h2, hpair2]
        split_ifs <;> omega

/-- The sweep log never contains a balancer-slot release. -/
theorem unloadLog_no_free (id : Nat) :
    ∀ K, ∀ e ∈ unloadLog id K, ∀ slot, e ≠ Event.balancerFree slot := by
  intro K
  induction K with
  | zero => intro e he; simp [unloadLog] at he
  | succ K ih =>
      intro e he slot
      rw [show unloadLog id (K + 1)
          = unloadLog id K ++ [Event.acquireSession K, Event.implUnload K id] from rfl] at he
      rcases List.mem_append.mp he with h | h
      · exact ih e h slot
      · simp at h
        rcases h with rfl | rfl <;> simp

/-- Dropping an id from a cache removes its materialization. -/
theorem lookup_filter_ne (id : Nat) :
    ∀ c : List (Nat × Obj), (c.filter (fun p => p.1 != id)).lookup id = none := by
  intro c
  induction c with
  | nil => rfl
  | cons p rest ih =>
      by_cases hp : p.1 = id
      · simpa [List.filter_cons, hp] using ih
      · have hbeq : (id == p.1) = false := by simp [Ne.symm hp]
        rw [List.filter_cons, if_pos (by simp [hp])]
        simp only [List.lookup, hbeq]
        exact ih

/-- Claim C5: `ReplicatedObjImpl::unload` with no specific interpreter
performs the unload on every interpreter of the pool — each instance's cache
loses its materialization for the object's id (and only that entry), the log
records exactly one session acquisition and one implementation-level unload
per pool interpreter (in pool order), and destruction of the
`ReplicatedObjImpl` (run when the last `ReplicatedObj` handle dies) performs
exactly this all-instances unload. -/
theorem C5_unload_sweeps_all_instances (r : ReplicatedObjImpl) (m : ManagerState) :
    (r.unload none m).interps = m.interps.map (fun st => implUnload st r.object_id) ∧
    (r.unload none m).log = m.log ++ unloadLog r.object_id m.interps.length ∧
    r.dtor m = r.unload none m ∧
    (∀ i, i < m.interps.length →
      (unloadLog r.object_id m.interps.length).count (Event.acquireSession i) = 1 ∧
      (unloadLog r.object_id m.interps.length).count (Event.implUnload i r.object_id) = 1) ∧
    (∀ st : InterpState, (implUnload st r.object_id).cache.lookup r.object_id = none) := by
  have hu : r.unload none m =
      { m with interps := partUnload r.object_id m.interps m.interps.length,
               log := m.log ++ unloadLog r.object_id m.interps.length } :=
    unload_fold r m m.interps.length (le_refl _)
  refine ⟨?_, ?_, rfl, ?_, ?_⟩
  · rw [hu]
    exact partUnload_full r.object_id m.interps
  · rw [hu]
  · intro i hi
    obtain ⟨h1, h2⟩ := unloadLog_count r.object_id m.interps.length i
    rw [h1, h2]
    simp [hi]
  · intro st
    exact lookup_filter_ne r.object_id st.cache

/-- Claim C5 witness: in a two-instance pool where both instances hold a
materialization of id 3, the sweep log holds exactly one session acquisition
and one unload per instance, and the caches drop id 3 (keeping id 4). -/
theorem C5_unload_sweeps_all_instances_witness :
    ((0 : Nat) < ([⟨[(3, 9)]⟩, ⟨[(3, 9), (4, 8)]⟩] : List InterpState).length) ∧
    ((unloadLog 3 ([⟨[(3, 9)]⟩, ⟨[(3, 9), (4, 8)]⟩] : List InterpState).length).count
        (Event.acquireSession 0) = 1 ∧
      (unloadLog 3 ([⟨[(3, 9)]⟩, ⟨[(3, 9), (4, 8)]⟩] : List InterpState).length).count
        (Event.implUnload 0 3) = 1) ∧
    ((⟨3, [7]⟩ : ReplicatedObjImpl).unload none
        ⟨⟨fun _ o => [o], fun p => p.getD 0 0⟩,
          [⟨[(3, 9)]⟩, ⟨[(3, 9), (4, 8)]⟩], [0, 0], 0, 5, []⟩).interps
      = [⟨[]⟩, ⟨[(4, 8)]⟩] :=
  ⟨by decide,
   (C5_unload_sweeps_all_instances ⟨3, [7]⟩
       ⟨⟨fun _ o => [o], fun p => p.getD 0 0⟩,
         [⟨[(3, 9)]⟩, ⟨[(3, 9), (4, 8)]⟩], [0, 0], 0, 5, []⟩).2.2.2.1 0 (by decide),
   by
    have h := (C5_unload_sweeps_all_instances ⟨3, [7]⟩
        ⟨⟨fun _ o => [o], fun p => p.getD 0 0⟩,
          [⟨[(3, 9)]⟩, ⟨[(3, 9), (4, 8)]⟩], [0, 0], 0, 5, []⟩).1
    rw [h]
    decide⟩

/-- Claim C10: the unload path — targeted at one interpreter, swept across
the pool, or triggered by destruction of the last handle — leaves every
`LoadBalancer` usage counter unchanged: the sessions it creates are bound
directly to interpreters with no slot tag and no manager, so no counter is
incremented or freed and the log gains no balancer-release event. -/
theorem C10_unload_leaves_balancer_unchanged (r : ReplicatedObj) (m : ManagerState) (i : Nat) :
    (r.unload none m).resources = m.resources ∧
    (r.unload (some i) m).resources = m.resources ∧
    (r.pImpl.dtor m).resources = m.resources ∧
    (∀ e ∈ unloadLog r.pImpl.object_id m.interps.length, ∀ slot,
      e ≠ Event.balancerFree slot) ∧
    ((Interpreter.acquire_session i m).1.notify_idx = -1 ∧
     (Interpreter.acquire_session i m).1.hasManager = false) := by
  have hu : r.pImpl.unload none m =
      { m with interps := partUnload r.pImpl.object_id m.interps m.interps.length,
               log := m.log ++ unloadLog r.pImpl.object_id m.interps.length } :=
    unload_fold r.pImpl m m.interps.length (le_refl _)
  refine ⟨?_, ?_, ?_, unloadLog_no_free r.pImpl.object_id m.interps.length, rfl, rfl⟩
  · show (r.pImpl.unload none m).resources = m.resources
    rw [hu]
  · show (unloadOnInterpreter r.pImpl i m).resources = m.resources
    rw [unloadOnInterpreter_eq]
  · show (r.pImpl.unload none m).resources = m.resources
    rw [hu]

/-- Claim C10 witness: on a one-instance pool with a loaded balancer slot,
both unload forms and the destructor leave the counters `[2]` untouched, and
no event of a concrete sweep log is a balancer release. -/
theorem C10_unload_leaves_balancer_unchanged_witness :
    (Event.acquireSession 0 ∈ unloadLog 3 1) ∧
    ((( ⟨⟨3, [7]⟩⟩ : ReplicatedObj).unload none
        ⟨⟨fun _ o => [o], fun p => p.getD 0 0⟩, [⟨[(3, 9)]⟩], [2], 0, 5, []⟩).resources
      = [2] ∧
     Event.acquireSession 0 ≠ Event.balancerFree 2) :=
  ⟨by decide,
   (C10_unload_leaves_balancer_unchanged ⟨⟨3, [7]⟩⟩
       ⟨⟨fun _ o => [o], fun p => p.getD 0 0⟩, [⟨[(3, 9)]⟩], [2], 0, 5, []⟩ 0).1,
   (C10_unload_leaves_balancer_unchanged ⟨⟨3, [7]⟩⟩
       ⟨⟨fun _ o => [o], fun p => p.getD 0 0⟩, [⟨[(3, 9)]⟩], [2], 0, 5, []⟩ 0).2.2.2.1
     (Event.acquireSession 0) (by decide) 2⟩

end Deploy
